import Mathlib

/-!
Verification of the crawl/filter/download pipeline of
`src/codeen/code/profile.py` (Kemono-and-Coomer-Downloader).

The Python script is embedded shallowly:

* pure string manipulation (`re.sub`, `str.split`, `str.strip`, `int(...)`,
  `os.path.join`, `os.path.splitext`, `os.path.basename`, decimal formatting
  of counters, `urlparse`, `parse_qs`) is translated into executable Lean
  functions over `String` / `List Char`;
* the filesystem is a list of existing paths (`os.path.exists` is list
  membership, `os.makedirs` / file writes cons the new path);
* the network is a pure oracle: listing fetches are `Nat → Option ListingPage`
  (indexed by the `?o=` offset, `none` models a caught `RequestException`),
  post-page and media fetches live in a `Remote` record;
* the uncaught exceptions of the script (`None["content"]` on a missing
  post-id meta tag, an out-of-range index while deriving the platform name)
  are modelled by `Except Fatal`; exceptions the script catches
  (`requests.exceptions.*`) are ordinary outcomes.

Recursion that Python expresses as unbounded `while` loops is given explicit
fuel; the fuel values chosen are proved (not assumed) to be large enough.
-/

deriving instance DecidableEq for Except

namespace Profile

/-! ### Decimal rendering of naturals (Python f-string `{counter}`) -/

/-- The character of a decimal digit. -/
def digitChar (d : Nat) : Char := Char.ofNat (48 + d)

/-- Big-endian decimal digit characters of `n`, prepended to `acc`.
Fuel-driven; `n + 1` units of fuel always suffice. -/
def natCharsAux : Nat → Nat → List Char → List Char
  | 0, _, acc => acc
  | f + 1, n, acc =>
    if n < 10 then digitChar n :: acc
    else natCharsAux f (n / 10) (digitChar (n % 10) :: acc)

/-- Decimal rendering of a natural number, as Python string formatting
produces it in `f"{base}_duplicate{counter}{ext}"`. -/
def natToStr (n : Nat) : String := String.mk (natCharsAux (n + 1) n [])

/-! ### Python `str` primitives used by the script -/

/-- Python `str.split(sep)` for a non-empty separator (fuel-driven scan). -/
def splitChars (sep : List Char) : Nat → List Char → List Char → List (List Char)
  | 0, acc, rest => [acc.reverse ++ rest]
  | _ + 1, acc, [] => [acc.reverse]
  | f + 1, acc, c :: cs =>
    if sep.isPrefixOf (c :: cs) then
      acc.reverse :: splitChars sep f [] (List.drop (sep.length - 1) cs)
    else splitChars sep f (c :: acc) cs

/-- Python `s.split(sep)` (all occurrences, non-empty separator). -/
def strSplitOn (sep s : String) : List String :=
  (splitChars sep.data (s.data.length + 1) [] s.data).map String.mk

/-- Python `s.strip()`. -/
def strTrim (s : String) : String :=
  String.mk (((s.data.dropWhile Char.isWhitespace).reverse.dropWhile
    Char.isWhitespace).reverse)

/-- A decimal digit character? -/
def isDigitC (c : Char) : Bool := 48 ≤ c.toNat && c.toNat ≤ 57

/-- Value of a big-endian list of decimal digit characters. -/
def decimalVal (cs : List Char) : Nat :=
  cs.foldl (fun a c => a * 10 + (c.toNat - 48)) 0

/-- Python `int(s)` restricted to plain digit strings (the only shape the
script feeds it after `split(' of ')`); other shapes raise in Python and are
outside every claim. -/
def strToNat? (s : String) : Option Nat :=
  if s.data ≠ [] && s.data.all isDigitC then some (decimalVal s.data) else none

/-- Python `str.startswith`. -/
def strStartsWith (s p : String) : Bool := p.data.isPrefixOf s.data

/-- Python `str.endswith`. -/
def strEndsWith (s p : String) : Bool := p.data.isSuffixOf s.data

/-- Substring containment on char lists. -/
def listContainsSub (p : List Char) : List Char → Bool
  | [] => p.isEmpty
  | c :: cs => p.isPrefixOf (c :: cs) || listContainsSub p cs

/-- Python `p in s` (substring containment). -/
def strContains (s p : String) : Bool := listContainsSub p.data s.data

/-! ### `os.path` primitives -/

/-- Model of `os.path.join` (POSIX), two components, as the script uses it. -/
def path_join (a b : String) : String :=
  if strStartsWith b "/" then b
  else if a = "" then b
  else if strEndsWith a "/" then a ++ b
  else a ++ "/" ++ b

/-- Index of the last occurrence of `c` in `cs`. -/
def lastIdxAux (c : Char) : List Char → Nat → Option Nat → Option Nat
  | [], _, best => best
  | d :: ds, i, best => lastIdxAux c ds (i + 1) (if d = c then some i else best)

/-- Index of the last occurrence of `c` in `cs`. -/
def lastIdxOf (c : Char) (cs : List Char) : Option Nat := lastIdxAux c cs 0 none

/-- Model of `os.path.splitext` (POSIX): split at the last dot, unless every character
between the start of the basename and that dot is itself a dot. -/
def splitext (p : String) : String × String :=
  let cs := p.data
  match lastIdxOf '.' cs with
  | none => (p, "")
  | some d =>
    let s := match lastIdxOf '/' cs with
             | some i => i + 1
             | none => 0
    if s ≤ d && ((cs.drop s).take (d - s)).any (fun c => c ≠ '.') then
      (String.mk (cs.take d), String.mk (cs.drop d))
    else (p, "")

/-- Model of `os.path.basename` (POSIX). -/
def basenameOf (p : String) : String :=
  match lastIdxOf '/' p.data with
  | some i => String.mk (p.data.drop (i + 1))
  | none => p

/-! ### `urllib.parse` primitives (common absolute-URL shapes) -/

/-- First occurrence split: `some (before, after)` when `sep` occurs in `s`. -/
def breakOnAux (sep : List Char) : Nat → List Char → List Char →
    Option (List Char × List Char)
  | 0, _, _ => none
  | _ + 1, _, [] => none
  | f + 1, acc, c :: cs =>
    if sep.isPrefixOf (c :: cs) then
      some (acc.reverse, List.drop (sep.length - 1) cs)
    else breakOnAux sep f (c :: acc) cs

/-- First occurrence split of a string. -/
def breakOn (sep s : String) : Option (String × String) :=
  (breakOnAux sep.data (s.data.length + 1) [] s.data).map
    (fun x => (String.mk x.1, String.mk x.2))

/-- Model of `urlparse(u).netloc` for the URL shapes the script handles: the part
between the first `//` and the next `/`, `?` or `#` (empty when there is no
`//`). -/
def urlparse_netloc (u : String) : String :=
  match breakOn "//" u with
  | some x => String.mk (x.2.data.takeWhile
      (fun c => c ≠ '/' && c ≠ '?' && c ≠ '#'))
  | none => ""

/-- Model of `urlparse(u).path` for the same URL shapes. -/
def urlparse_path (u : String) : String :=
  match breakOn "//" u with
  | some x => String.mk ((x.2.data.dropWhile
      (fun c => c ≠ '/' && c ≠ '?' && c ≠ '#')).takeWhile
        (fun c => c ≠ '?' && c ≠ '#'))
  | none => String.mk (u.data.takeWhile (fun c => c ≠ '?' && c ≠ '#'))

/-- Model of `urlparse(u).query`: between the first `?` (before any `#`) and the `#`. -/
def urlparse_query (u : String) : String :=
  String.mk (((u.data.takeWhile (fun c => c ≠ '#')).dropWhile
    (fun c => c ≠ '?')).drop 1)

/-- One `k=v` field of a query string, as `parse_qs` (with its default
`keep_blank_values=False`) keeps it: dropped when there is no `=` or the
value is empty. -/
def pairOfField (kv : String) : Option (String × String) :=
  match breakOn "=" kv with
  | some x => if x.2 = "" then none else some x
  | none => none

/-- Model of `parse_qs(urlparse(url).query).get('f', [None])[0]`: the first non-blank
value of the `f` parameter, if any. -/
def queryParamF (url : String) : Option String :=
  (((strSplitOn "&" (urlparse_query url)).filterMap pairOfField).filter
    (fun kv => kv.1 = "f")).head?.map (fun kv => kv.2)

/-! ### The script's own helpers (profile.py) -/

/-- The character class of `re.sub(r'[<>:"/\\|?*]', '_', ...)`. -/
def forbiddenChars : List Char := ['<', '>', ':', '\"', '/', '\\', '|', '?', '*']

/-- The scan performed by `re.sub` with a single-character class. -/
def subForbidden : List Char → List Char
  | [] => []
  | c :: cs => (if c ∈ forbiddenChars then '_' else c) :: subForbidden cs

/-- Source `sanitize_filename` (profile.py:50-52): replace the forbidden characters
by `_`, then truncate to 255 characters. -/
def sanitize_filename (filename : String) : String :=
  String.mk ((subForbidden filename.data).take 255)

/-- The collision candidates `f"{base}_duplicate{counter}{ext}"`. -/
def dup_candidate (base ext : String) (k : Nat) : String :=
  base ++ "_duplicate" ++ natToStr k ++ ext

/-- The `while os.path.exists(...)` loop of `ensure_unique_filename`
(profile.py:59-61), with fuel standing in for Python's unbounded loop. -/
def uniqueAux (fs : List String) (path base ext : String) :
    Nat → String → Nat → String
  | 0, new, _ => new
  | f + 1, new, counter =>
    if path_join path new ∈ fs then
      uniqueAux fs path base ext f (dup_candidate base ext counter) (counter + 1)
    else new

/-- Source `ensure_unique_filename` (profile.py:55-62). The Python loop terminates
because successive candidates are pairwise distinct and the folder is finite;
fuel `|fs| + 2` is proved sufficient below (`uniqueAux` never bottoms out). -/
def ensure_unique_filename (fs : List String) (path filename : String) : String :=
  let be := splitext filename
  uniqueAux fs path be.1 be.2 (fs.length + 2) filename 1

/-- Source `get_filename_from_url` (profile.py:65-70): prefer the `f` query
parameter, else the basename of the URL path; sanitize the result. -/
def get_filename_from_url (url : String) : String :=
  let filename := match queryParamF url with
                  | some v => v
                  | none => basenameOf (urlparse_path url)
  sanitize_filename filename

/-- Source `get_total_posts` (profile.py:41-47): the text of the `<small>` element
(absent ↦ `None`), split on `' of '`, second chunk parsed as an integer. -/
def get_total_posts (small : Option String) : Option Nat :=
  match small with
  | none => none
  | some s =>
    match (strSplitOn " of " (strTrim s)).get? 1 with
    | some t => strToNat? t
    | none => none

/-! ### Data model -/

/-- A post summary, as `extract_post_info` (profile.py:24-38) produces it:
the sentinels `"No attachments"` / `"No date available"` /
`"No image available"` stand for absent elements. -/
structure PostInfo where
  link : String
  title : String
  attachments : String
  date : String
  image : String
deriving DecidableEq, Repr

/-- The six options of `code/profileconfig.json`. -/
structure Config where
  both : Bool
  files_only : Bool
  no_files : Bool
  save_info_txt : Bool
  download_attachments : Bool
  download_videos : Bool
deriving DecidableEq, Repr

/-- One listing page: the optional `<small>` total-count text and the
post cards (already carried as extracted summaries, in page order). -/
structure ListingPage where
  small : Option String
  cards : List PostInfo
deriving DecidableEq, Repr

/-- The fields `download_content` reads from a parsed post detail page.
`none` models an absent element. `postTitle` is the joined text of the
`h1.post__title` spans. -/
structure PostPage where
  authorName : Option String
  ogImage : Option String
  postId : Option String
  postTitle : Option String
  imageLinks : List String
  attachmentLinks : List String
deriving DecidableEq, Repr

/-- The network, as a pure oracle: `page url` is the parsed post detail page
(`none` = caught `RequestException`), `media url` tells whether fetching a
media URL succeeds. -/
structure Remote where
  page : String → Option PostPage
  media : String → Bool

/-- How one `download_content` call ended, among the outcomes the script
handles itself. -/
inductive Outcome
  | success
  | skipped
  | reqError
deriving DecidableEq, Repr

/-- Exceptions `download_content` raises but never catches: `TypeError` from
`soup.find("meta", attrs={"name": "id"})["content"]` on a missing post-id
element, `IndexError` from `...path.split("/")[2]` while deriving the
platform name. -/
inductive Fatal
  | missingPostId
  | platformIndexError
deriving DecidableEq, Repr

/-- The observable effect of one `download_content` call: the filesystem
afterwards, the outcome, the media URLs requested, the file paths written. -/
structure DLResult where
  fs : List String
  outcome : Outcome
  mediaFetches : List String
  writes : List String
deriving DecidableEq, Repr

/-! ### `download_content` (profile.py:163-264) -/

/-- Platform resolution (profile.py:187):
`urlparse(og_image)["content"]).path.split("/")[2]` when the `og:image` meta
element exists (index 2 out of range raises), else `"UnknownPlatform"`. -/
def platform_of (soup : PostPage) : Except Fatal String :=
  match soup.ogImage with
  | some c =>
    match (strSplitOn "/" (urlparse_path c)).get? 2 with
    | some seg => Except.ok seg
    | none => Except.error Fatal.platformIndexError
  | none => Except.ok "UnknownPlatform"

/-- Author resolution (profile.py:177-185): explicit author element, else
`og:image` content `.split("/")[-1].split("-")[0]`, else `"UnknownAuthor"`. -/
def author_of (soup : PostPage) : String :=
  match soup.authorName with
  | some a => strTrim a
  | none =>
    match soup.ogImage with
    | some c => ((strSplitOn "-" ((strSplitOn "/" c).getLastD "")).headD "")
    | none => "UnknownAuthor"

/-- The `{title}.html` name `save_post_info` (profile.py:84-92) writes. -/
def info_title (soup : PostPage) : String :=
  match soup.postTitle with
  | some t => sanitize_filename t
  | none => "Untitled"

/-- Filesystem effect of `save_post_info`: one file in the post folder. -/
def save_post_info_fs (soup : PostPage) (folder : String) (fs : List String) :
    List String :=
  path_join folder (info_title soup ++ ".html") :: fs

/-- One iteration of a media loop of `download_content` (profile.py:208-222,
226-240, 244-258): resolve and de-duplicate the filename, then — only if the
path does not exist — fetch, and on success write. State:
(filesystem, media URLs requested, paths written). -/
def download_file (rm : Remote) (post_path : String)
    (st : List String × List String × List String) (url : String) :
    List String × List String × List String :=
  let filename := ensure_unique_filename st.1 post_path (get_filename_from_url url)
  let file_path := path_join post_path filename
  if file_path ∈ st.1 then st
  else if rm.media url then (file_path :: st.1, st.2.1 ++ [url], st.2.2 ++ [file_path])
  else (st.1, st.2.1 ++ [url], st.2.2)

/-- A whole media loop of `download_content`. -/
def download_files (rm : Remote) (post_path : String) :
    List String → List String × List String × List String →
    List String × List String × List String
  | [], st => st
  | u :: us, st => download_files rm post_path us (download_file rm post_path st u)

/-- Source `download_content` (profile.py:163-264). Fatal extraction errors are the
exceptions the script does not catch; a failed page fetch is the caught
`RequestException` outcome. The script's `downloaded_links` set is write-only
(never read) and is not modelled; `save_post_info` is modelled by its
filesystem effect (the `{title}.html` file it creates). -/
def download_content (rm : Remote) (url : String) (config : Config)
    (fs0 : List String) : Except Fatal DLResult :=
  match rm.page url with
  | none => Except.ok ⟨fs0, Outcome.reqError, [], []⟩
  | some soup =>
    let base_folder :=
      if strContains (urlparse_netloc url) "kemono.su"
         || strContains (urlparse_netloc url) "kemono.party"
      then "Kemono" else "Coomer"
    match platform_of soup with
    | Except.error e => Except.error e
    | Except.ok platform_name =>
      let author_folder := author_of soup ++ "-" ++ platform_name
      match soup.postId with
      | none => Except.error Fatal.missingPostId
      | some post_id =>
        let post_path :=
          path_join (path_join (path_join base_folder author_folder) "posts") post_id
        if post_path ∈ fs0 then Except.ok ⟨fs0, Outcome.skipped, [], []⟩
        else
          let fs1 := post_path :: fs0
          let fs2 := if config.save_info_txt then save_post_info_fs soup post_path fs1
                     else fs1
          let st3 := download_files rm post_path soup.imageLinks (fs2, [], [])
          let st4 := if config.download_attachments then
                       download_files rm post_path soup.attachmentLinks st3
                     else st3
          let st5 := if config.download_videos then
                       download_files rm post_path soup.attachmentLinks st4
                     else st4
          Except.ok ⟨st5.1, Outcome.success, st5.2.1, st5.2.2⟩

/-! ### Post filter (profile.py:310-319) -/

/-- Source `has_media` (profile.py:312). -/
def has_media (post : PostInfo) : Bool :=
  (post.image != "No image available") || (post.attachments != "No attachments")

/-- The `filtered_posts` loop (profile.py:310-319): an `if`/`elif` chain,
evaluated per post in input order. -/
def filter_posts (config : Config) : List PostInfo → List PostInfo
  | [] => []
  | post :: rest =>
    (if config.both then [post]
     else if config.files_only && has_media post then [post]
     else if config.no_files && !has_media post then [post]
     else []) ++ filter_posts config rest

/-! ### Pagination walker (profile.py:277-307) -/

/-- Source `total_pages` (profile.py:288-291), including Python's falsy treatment
of a parsed total of `0`. -/
def total_pages_of (tp : Option Nat) : Nat :=
  match tp with
  | some n => if n ≠ 0 then (n + 49) / 50 else 1
  | none => 1

/-- Iterations of the `while True` page loop after page 0: `tpages` is the
`total_pages` fixed on the first page, the fuel is `tpages - p` (proved never
to bottom out on the reachable iterations). Returns the accumulated posts and
the list of offsets fetched. -/
def crawlFrom (remote : Nat → Option ListingPage) (tpages : Nat) :
    Nat → Nat → List PostInfo → List Nat → List PostInfo × List Nat
  | 0, _, acc, offs => (acc, offs)
  | f + 1, p, acc, offs =>
    let offs := offs ++ [p * 50]
    match remote (p * 50) with
    | none => (acc, offs)
    | some page =>
      if page.cards.isEmpty then (acc, offs)
      else
        let acc := acc ++ page.cards
        if tpages - 1 ≤ p then (acc, offs)
        else crawlFrom remote tpages f (p + 1) acc offs

/-- The whole page loop (profile.py:277-307): fetch page 0 at offset `0`,
compute `total_pages` from its `<small>` element, then walk the remaining
pages. `remote` maps an offset to the fetched listing page (`none` = caught
`RequestException`, which breaks the loop keeping the posts collected). -/
def crawl (remote : Nat → Option ListingPage) : List PostInfo × List Nat :=
  match remote 0 with
  | none => ([], [0])
  | some page =>
    let tpages := total_pages_of (get_total_posts page.small)
    if page.cards.isEmpty then ([], [0])
    else if tpages - 1 ≤ 0 then (page.cards, [0])
    else crawlFrom remote tpages (tpages - 1) 1 page.cards [0]

/-- The run after the crawl (profile.py:309-322): the posts that are filtered
and then handed to the download loop. -/
def run_filtered (remote : Nat → Option ListingPage) (config : Config) :
    List PostInfo :=
  filter_posts config (crawl remote).1

/-- The download loop (profile.py:325-326). An uncaught exception inside
`download_content` propagates and aborts the whole run; otherwise each post's
outcome is collected and the filesystem threads through. -/
def run_downloads (rm : Remote) (config : Config) :
    List PostInfo → List String → Except Fatal (List String × List Outcome)
  | [], fs => Except.ok (fs, [])
  | post :: rest, fs =>
    match download_content rm post.link config fs with
    | Except.error e => Except.error e
    | Except.ok r =>
      match run_downloads rm config rest r.fs with
      | Except.error e => Except.error e
      | Except.ok pr => Except.ok (pr.1, r.outcome :: pr.2)

/-! ### Concrete fixtures used by witnesses and counterexamples -/

def cfgFilesOnly : Config := ⟨false, true, false, false, false, false⟩

def cfgOverlap : Config := ⟨true, true, true, false, false, false⟩

def postMedia : PostInfo :=
  ⟨"https://kemono.su/p/1", "T1", "1 attachments", "D1", "No image available"⟩

def postBare : PostInfo :=
  ⟨"https://kemono.su/p/2", "T2", "No attachments", "D2", "No image available"⟩

def pg73a : ListingPage := ⟨some "Showing 1-50 of 73", [postMedia]⟩

def pg73b : ListingPage := ⟨none, [postBare]⟩

def rem73 : Nat → Option ListingPage := fun o =>
  if o = 0 then some pg73a else if o = 50 then some pg73b else none

def pages73 : Nat → ListingPage := fun i => if i = 0 then pg73a else pg73b

def remEmpty : Nat → Option ListingPage := fun o =>
  if o = 50 then some ⟨none, []⟩ else none

def remFailAt1 : Nat → Option ListingPage := fun o =>
  if o = 0 then some pg73a else none

def pagesFail : Nat → ListingPage := fun _ => pg73a

def page3 : PostPage :=
  ⟨some "A", some "https://img.k.su/icons/patreon/1", some "42", none,
   ["https://kemono.su/data/i1.png"], ["https://kemono.su/data/a1.zip"]⟩

def url3 : String := "https://kemono.su/patreon/user/1/post/42"

def rm3 : Remote := ⟨fun u => if u = url3 then some page3 else none, fun _ => true⟩

def cfg3 : Config := ⟨true, false, false, false, true, true⟩

/-- The result of the first `download_content` call of the concrete scenario:
the image is written, the single attachment is fetched by the attachments
pass and again by the videos pass, the second copy stored with the
`_duplicate1` suffix. -/
def r3 : DLResult :=
  ⟨["Kemono/A-patreon/posts/42/a1_duplicate1.zip",
    "Kemono/A-patreon/posts/42/a1.zip",
    "Kemono/A-patreon/posts/42/i1.png",
    "Kemono/A-patreon/posts/42"],
   Outcome.success,
   ["https://kemono.su/data/i1.png", "https://kemono.su/data/a1.zip",
    "https://kemono.su/data/a1.zip"],
   ["Kemono/A-patreon/posts/42/i1.png", "Kemono/A-patreon/posts/42/a1.zip",
    "Kemono/A-patreon/posts/42/a1_duplicate1.zip"]⟩

def badPage : PostPage := ⟨some "A", none, none, none, [], []⟩

def goodPage : PostPage := ⟨some "B", none, some "7", none, [], []⟩

def post7a : PostInfo :=
  ⟨"https://coomer.su/p/bad", "t1", "No attachments", "d", "No image available"⟩

def post7b : PostInfo :=
  ⟨"https://coomer.su/p/good", "t2", "No attachments", "d", "No image available"⟩

def rm7 : Remote :=
  ⟨fun u => if u = post7a.link then some badPage
            else if u = post7b.link then some goodPage else none,
   fun _ => true⟩

def cfg7 : Config := ⟨true, false, false, false, false, false⟩

def page9 : PostPage :=
  ⟨some "C", none, some "9", none, [],
   ["https://kemono.su/d1/a.zip", "https://kemono.su/d2/a.zip"]⟩

def url9 : String := "https://kemono.su/x/9"

def rm9 : Remote := ⟨fun u => if u = url9 then some page9 else none, fun _ => true⟩

def cfg9 : Config := ⟨true, false, false, false, true, false⟩

/-- The result of downloading a post whose two attachments are distinct URLs
resolving to the same basename `a.zip`: two distinct files, the second named
`a_duplicate1.zip`. -/
def r9 : DLResult :=
  ⟨["Kemono/C-UnknownPlatform/posts/9/a_duplicate1.zip",
    "Kemono/C-UnknownPlatform/posts/9/a.zip",
    "Kemono/C-UnknownPlatform/posts/9"],
   Outcome.success,
   ["https://kemono.su/d1/a.zip", "https://kemono.su/d2/a.zip"],
   ["Kemono/C-UnknownPlatform/posts/9/a.zip",
    "Kemono/C-UnknownPlatform/posts/9/a_duplicate1.zip"]⟩

/-! ### Decimal rendering: injectivity -/

theorem digitChar_toNat {d : Nat} (h : d < 10) : (digitChar d).toNat = 48 + d := by
  interval_cases d <;> decide

theorem natCharsAux_eq_append (f : Nat) : ∀ (n : Nat) (acc : List Char),
    natCharsAux f n acc = natCharsAux f n [] ++ acc := by
  induction f with
  | zero => intro n acc; simp [natCharsAux]
  | succ f ih =>
    intro n acc
    by_cases h : n < 10
    · simp [natCharsAux, h]
    · rw [natCharsAux, natCharsAux, if_neg h, if_neg h,
        ih (n / 10) (digitChar (n % 10) :: acc), ih (n / 10) [digitChar (n % 10)],
        List.append_assoc]
      rfl

theorem decimalVal_append_singleton (cs : List Char) (c : Char) :
    decimalVal (cs ++ [c]) = decimalVal cs * 10 + (c.toNat - 48) := by
  simp [decimalVal, List.foldl_append]

theorem decimalVal_natCharsAux (f : Nat) : ∀ n : Nat, n < 10 ^ f →
    decimalVal (natCharsAux f n []) = n := by
  induction f with
  | zero =>
    intro n hn
    interval_cases n
    simp [natCharsAux, decimalVal]
  | succ f ih =>
    intro n hn
    by_cases h : n < 10
    · simp only [natCharsAux, if_pos h]
      show decimalVal ([] ++ [digitChar n]) = n
      rw [decimalVal_append_singleton, digitChar_toNat h]
      simp [decimalVal]
    · rw [natCharsAux, if_neg h,
        natCharsAux_eq_append f (n / 10) [digitChar (n % 10)],
        decimalVal_append_singleton,
        ih (n / 10) (by
          rw [Nat.div_lt_iff_lt_mul (by norm_num)]
          calc n < 10 ^ (f + 1) := hn
          _ = 10 ^ f * 10 := by ring),
        digitChar_toNat (Nat.mod_lt n (by norm_num))]
      omega

theorem decimalVal_natToStr (n : Nat) : decimalVal (natToStr n).data = n := by
  have hn : n < 10 ^ (n + 1) := by
    calc n < 2 ^ n := Nat.lt_two_pow n
    _ ≤ 10 ^ n := Nat.pow_le_pow_left (by norm_num) n
    _ ≤ 10 ^ (n + 1) := Nat.pow_le_pow_right (by norm_num) (Nat.le_succ n)
  exact decimalVal_natCharsAux (n + 1) n hn

theorem natToStr_inj {m n : Nat} (h : natToStr m = natToStr n) : m = n := by
  have := congrArg (fun s => decimalVal s.data) h
  simpa [decimalVal_natToStr] using this

/-! ### Collision candidates: injectivity and pigeonhole -/

theorem strEta (s : String) : String.mk s.data = s := by
  cases s; rfl

theorem strData_inj {s t : String} (h : s.data = t.data) : s = t := by
  have := congrArg String.mk h
  rwa [strEta, strEta] at this

theorem strAppend_cancel_left {a b c : String} (h : a ++ b = a ++ c) : b = c := by
  have hd := congrArg String.data h
  simp only [String.data_append] at hd
  exact strData_inj (List.append_cancel_left hd)

theorem dup_candidate_inj (base ext : String) {j k : Nat}
    (h : dup_candidate base ext j = dup_candidate base ext k) : j = k := by
  have hd := congrArg String.data h
  simp only [dup_candidate, String.data_append, List.append_assoc] at hd
  have h1 := List.append_cancel_left hd
  have h2 := List.append_cancel_left h1
  have h3 := List.append_cancel_right h2
  exact natToStr_inj (strData_inj h3)

theorem dup_candidate_head (base ext : String) (k : Nat) :
    (dup_candidate base ext k).data.head? = some (base.data.headD '_') := by
  cases h : base.data with
  | nil => simp [dup_candidate, String.data_append, h]
  | cons c cs => simp [dup_candidate, String.data_append, h]

theorem isPrefixOf_singleton_head {l₁ l₂ : List Char} (h : l₁.head? = l₂.head?)
    (c : Char) : [c].isPrefixOf l₁ = [c].isPrefixOf l₂ := by
  cases l₁ <;> cases l₂ <;> simp_all [List.isPrefixOf]

theorem dup_candidate_startsWith (base ext : String) (j k : Nat) :
    strStartsWith (dup_candidate base ext j) "/"
      = strStartsWith (dup_candidate base ext k) "/" := by
  unfold strStartsWith
  exact isPrefixOf_singleton_head
    ((dup_candidate_head base ext j).trans (dup_candidate_head base ext k).symm) '/'

theorem path_join_dup_inj (path base ext : String) {j k : Nat}
    (h : path_join path (dup_candidate base ext j)
          = path_join path (dup_candidate base ext k)) : j = k := by
  unfold path_join at h
  rw [← dup_candidate_startsWith base ext j k] at h
  by_cases hs : strStartsWith (dup_candidate base ext j) "/" = true
  · rw [if_pos hs, if_pos hs] at h
    exact dup_candidate_inj base ext h
  · rw [if_neg hs, if_neg hs] at h
    by_cases hp : path = ""
    · rw [if_pos hp, if_pos hp] at h
      exact dup_candidate_inj base ext h
    · rw [if_neg hp, if_neg hp] at h
      by_cases he : strEndsWith path "/" = true
      · rw [if_pos he, if_pos he] at h
        exact dup_candidate_inj base ext (strAppend_cancel_left h)
      · rw [if_neg he, if_neg he] at h
        exact dup_candidate_inj base ext (strAppend_cancel_left h)

theorem exists_free_candidate (fs : List String) (path base ext : String) :
    ∃ k, 1 ≤ k ∧ k ≤ fs.length + 1
      ∧ path_join path (dup_candidate base ext k) ∉ fs := by
  by_contra hcon
  push_neg at hcon
  have hnodup : ((List.range (fs.length + 1)).map
      (fun j => path_join path (dup_candidate base ext (j + 1)))).Nodup := by
    apply List.Nodup.map _ (List.nodup_range _)
    intro a b hab
    have := path_join_dup_inj path base ext hab
    omega
  have hsub : ((List.range (fs.length + 1)).map
      (fun j => path_join path (dup_candidate base ext (j + 1)))) ⊆ fs := by
    intro x hx
    simp only [List.mem_map, List.mem_range] at hx
    obtain ⟨j, hj, rfl⟩ := hx
    exact hcon (j + 1) (by omega) (by omega)
  have := (List.subperm_of_subset hnodup hsub).length_le
  simp at this

/-! ### The `ensure_unique_filename` loop -/

theorem uniqueAux_free {fs : List String} {path base ext new : String}
    {f counter : Nat} (h : path_join path new ∉ fs) :
    uniqueAux fs path base ext (f + 1) new counter = new := by
  simp [uniqueAux, h]

theorem uniqueAux_step {fs : List String} {path base ext new : String}
    {f counter : Nat} (h : path_join path new ∈ fs) :
    uniqueAux fs path base ext (f + 1) new counter
      = uniqueAux fs path base ext f (dup_candidate base ext counter) (counter + 1) := by
  simp [uniqueAux, h]

theorem uniqueAux_reaches (fs : List String) (path base ext : String) :
    ∀ (m counter fuel : Nat), m < fuel →
    (∀ j, j < m → path_join path (dup_candidate base ext (counter + j)) ∈ fs) →
    path_join path (dup_candidate base ext (counter + m)) ∉ fs →
    uniqueAux fs path base ext fuel (dup_candidate base ext counter) (counter + 1)
      = dup_candidate base ext (counter + m) := by
  intro m
  induction m with
  | zero =>
    intro counter fuel hlt _ hfree
    obtain ⟨f, rfl⟩ := Nat.exists_eq_succ_of_ne_zero (Nat.pos_iff_ne_zero.mp hlt)
    rw [Nat.add_zero] at hfree
    rw [uniqueAux_free hfree, Nat.add_zero]
  | succ m ih =>
    intro counter fuel hlt hbusy hfree
    obtain ⟨f, rfl⟩ := Nat.exists_eq_succ_of_ne_zero
      (Nat.pos_iff_ne_zero.mp (Nat.lt_of_le_of_lt (Nat.zero_le _) hlt))
    have h0 : path_join path (dup_candidate base ext counter) ∈ fs := by
      have := hbusy 0 (Nat.succ_pos m)
      rwa [Nat.add_zero] at this
    rw [uniqueAux_step h0]
    have := ih (counter + 1) f (by omega)
      (fun j hj => by
        have := hbusy (j + 1) (by omega)
        rwa [show counter + (j + 1) = counter + 1 + j by omega] at this)
      (by rwa [show counter + 1 + m = counter + (m + 1) by omega])
    rwa [show counter + 1 + m = counter + (m + 1) by omega] at this

/-- Full characterization of `ensure_unique_filename`: the name is returned
unchanged when it is free in the folder, otherwise the first collision
candidate `{base}_duplicate{k}{ext}` (k = 1, 2, ...) that is free is
returned. -/
theorem ensure_unique_spec (fs : List String) (path filename : String) :
    (path_join path filename ∉ fs →
      ensure_unique_filename fs path filename = filename)
    ∧ (path_join path filename ∈ fs →
      ∃ k, 1 ≤ k
        ∧ ensure_unique_filename fs path filename
            = dup_candidate (splitext filename).1 (splitext filename).2 k
        ∧ path_join path (dup_candidate (splitext filename).1 (splitext filename).2 k) ∉ fs
        ∧ ∀ j, 1 ≤ j → j < k →
            path_join path (dup_candidate (splitext filename).1 (splitext filename).2 j) ∈ fs) := by
  constructor
  · intro hfree
    unfold ensure_unique_filename
    exact uniqueAux_free hfree
  · intro hbusy
    unfold ensure_unique_filename
    have hex : ∃ m, path_join path
        (dup_candidate (splitext filename).1 (splitext filename).2 (1 + m)) ∉ fs := by
      obtain ⟨k, hk1, _, hkfree⟩ :=
        exists_free_candidate fs path (splitext filename).1 (splitext filename).2
      exact ⟨k - 1, by rwa [show 1 + (k - 1) = k by omega]⟩
    have hbound : Nat.find hex ≤ fs.length := by
      obtain ⟨k, hk1, hkle, hkfree⟩ :=
        exists_free_candidate fs path (splitext filename).1 (splitext filename).2
      have := Nat.find_min' hex
        (show path_join path (dup_candidate (splitext filename).1 (splitext filename).2
          (1 + (k - 1))) ∉ fs by rwa [show 1 + (k - 1) = k by omega])
      omega
    refine ⟨1 + Nat.find hex, by omega, ?_, ?_, ?_⟩
    · show uniqueAux fs path (splitext filename).1 (splitext filename).2
        (fs.length + 2) filename 1 = _
      rw [show fs.length + 2 = (fs.length + 1) + 1 by rfl, uniqueAux_step hbusy]
      exact uniqueAux_reaches fs path (splitext filename).1 (splitext filename).2
        (Nat.find hex) 1 (fs.length + 1) (by omega)
        (fun j hj => by
          have := Nat.find_min hex hj
          exact not_not.mp this)
        (Nat.find_spec hex)
    · exact Nat.find_spec hex
    · intro j hj1 hjlt
      have := Nat.find_min hex (show j - 1 < Nat.find hex by omega)
      rw [show 1 + (j - 1) = j by omega] at this
      exact not_not.mp this

/-- The name `ensure_unique_filename` returns never collides with an existing
path in the folder. -/
theorem ensure_unique_fresh (fs : List String) (path filename : String) :
    path_join path (ensure_unique_filename fs path filename) ∉ fs := by
  by_cases h : path_join path filename ∈ fs
  · obtain ⟨k, _, heq, hfree, _⟩ := (ensure_unique_spec fs path filename).2 h
    rw [heq]; exact hfree
  · rw [(ensure_unique_spec fs path filename).1 h]; exact h

/-! ### Post filter -/

/-- The `if`/`elif` chain appends each input post at most once, whatever the
flag combination: the output is always a sublist of the input. -/
theorem filter_posts_sublist (config : Config) :
    ∀ posts : List PostInfo, (filter_posts config posts).Sublist posts := by
  intro posts
  induction posts with
  | nil => simp [filter_posts]
  | cons p rest ih =>
    rw [filter_posts]
    split
    · exact ih.cons₂ p
    · split
      · exact ih.cons₂ p
      · split
        · exact ih.cons₂ p
        · exact ih.cons p

/-- C1: `hasMedia` holds iff the cover image is not the missing-image
sentinel or the attachments label is not `"No attachments"`; and under any
configuration with exactly one of `both`/`files_only`/`no_files` set, the
filter keeps exactly the posts of the §4.4 rule table, in input order. -/
theorem filter_rule_table (config : Config) (posts : List PostInfo) (p : PostInfo)
    (h : (config.both = true ∧ config.files_only = false ∧ config.no_files = false)
       ∨ (config.both = false ∧ config.files_only = true ∧ config.no_files = false)
       ∨ (config.both = false ∧ config.files_only = false ∧ config.no_files = true)) :
    (has_media p = true
      ↔ (p.image ≠ "No image available" ∨ p.attachments ≠ "No attachments"))
    ∧ filter_posts config posts
        = posts.filter (fun q =>
            if config.both then true
            else if config.files_only then has_media q
            else !has_media q) := by
  constructor
  · simp [has_media, Bool.or_eq_true, bne_iff_ne]
  · induction posts with
    | nil => simp [filter_posts]
    | cons q rest ih =>
      rcases h with ⟨h1, h2, h3⟩ | ⟨h1, h2, h3⟩ | ⟨h1, h2, h3⟩ <;>
        cases hm : has_media q <;>
          simp [filter_posts, List.filter_cons, h1, h2, h3, hm, ih]

/-- Witness for C1, at the `files_only` configuration on a two-post list. -/
theorem filter_rule_table_witness :
    (has_media postMedia = true
      ↔ (postMedia.image ≠ "No image available"
          ∨ postMedia.attachments ≠ "No attachments"))
    ∧ filter_posts cfgFilesOnly [postMedia, postBare]
        = [postMedia, postBare].filter (fun q =>
            if cfgFilesOnly.both then true
            else if cfgFilesOnly.files_only then has_media q
            else !has_media q) :=
  filter_rule_table cfgFilesOnly [postMedia, postBare] postMedia (by decide)

/-- C2 counterexample: the source chain is `if`/`elif`, so even with `both`,
`files_only` and `no_files` all true no post is ever appended twice — the
output is always a sublist of the input, and on the canonical overlapping
configuration a post with media occurs exactly once, not more than once. -/
theorem overlap_no_duplicate_append :
    (∀ (config : Config) (posts : List PostInfo),
      (filter_posts config posts).Sublist posts)
    ∧ filter_posts cfgOverlap [postMedia] = [postMedia]
    ∧ ¬ 1 < List.count postMedia (filter_posts cfgOverlap [postMedia]) :=
  ⟨fun config posts => filter_posts_sublist config posts, by decide, by decide⟩

/-- C2 amended: overlapping filter flags do not cause duplicate inclusion;
whenever `both` is true (in particular when all three flags are true) the
first branch short-circuits and every post is included exactly once. -/
theorem overlap_both_dominates (config : Config) (posts : List PostInfo)
    (h : config.both = true) : filter_posts config posts = posts := by
  induction posts with
  | nil => rfl
  | cons p rest ih => simp [filter_posts, h, ih]

/-- Witness for the amended C2, at the all-flags-true configuration. -/
theorem overlap_both_dominates_witness :
    filter_posts cfgOverlap [postMedia, postBare] = [postMedia, postBare] :=
  overlap_both_dominates cfgOverlap [postMedia, postBare] (by decide)

/-! ### Filename sanitization -/

theorem subForbidden_eq_map : ∀ cs : List Char,
    subForbidden cs = cs.map (fun c => if c ∈ forbiddenChars then '_' else c) := by
  intro cs
  induction cs with
  | nil => rfl
  | cons c cs ih => simp [subForbidden, ih]

/-- C8: `sanitize_filename` replaces every occurrence of the forbidden
characters by `_` and truncates to at most 255 characters, preserving all
other characters and their relative order (the result is exactly the
character-wise replacement of the first 255 input characters). -/
theorem sanitize_filename_spec (s : String) :
    (sanitize_filename s).data
        = (s.data.take 255).map (fun c => if c ∈ forbiddenChars then '_' else c)
    ∧ (sanitize_filename s).length ≤ 255 := by
  constructor
  · show (subForbidden s.data).take 255 = _
    rw [subForbidden_eq_map, List.map_take]
  · show ((subForbidden s.data).take 255).length ≤ 255
    simp [List.length_take]

/-! ### Pagination walker -/

/-- Completion lemma: when every remaining page up to the computed total is
fetched successfully and non-empty, the loop visits exactly those pages in
order, appending their cards and fetching offset `i * 50` for each. -/
theorem crawlFrom_all (remote : Nat → Option ListingPage) (T : Nat)
    (pages : Nat → ListingPage) :
    ∀ (d p : Nat) (acc : List PostInfo) (offs : List Nat), 1 ≤ d → p + d = T →
    (∀ i, p ≤ i → i < p + d →
      remote (i * 50) = some (pages i) ∧ (pages i).cards.isEmpty = false) →
    crawlFrom remote T d p acc offs
      = (acc ++ ((List.range' p d).map (fun i => (pages i).cards)).flatten,
         offs ++ (List.range' p d).map (fun i => i * 50)) := by
  intro d
  induction d with
  | zero => intro p acc offs h1 _ _; omega
  | succ d ih =>
    intro p acc offs _ h2 h3
    obtain ⟨hpg, hne⟩ := h3 p (le_refl p) (by omega)
    rw [crawlFrom, hpg]
    simp only [hne, Bool.false_eq_true, if_false]
    cases d with
    | zero =>
      rw [if_pos (by omega : T - 1 ≤ p)]
      simp [List.range']
    | succ d' =>
      rw [if_neg (by omega : ¬ T - 1 ≤ p)]
      rw [ih (p + 1) (acc ++ (pages p).cards) (offs ++ [p * 50]) (by omega) (by omega)
        (fun i hi1 hi2 => h3 i (by omega) (by omega))]
      simp [List.range'_succ, List.append_assoc]

/-- Failure lemma: when pages `p .. p+j-1` succeed non-empty and fetching
page `p+j` (still below the computed total) fails, the loop returns the
accumulated posts of the successful pages and the offsets fetched include the
failing one. -/
theorem crawlFrom_err (remote : Nat → Option ListingPage) (T : Nat)
    (pages : Nat → ListingPage) :
    ∀ (j p : Nat) (acc : List PostInfo) (offs : List Nat),
    (∀ i, p ≤ i → i < p + j →
      remote (i * 50) = some (pages i) ∧ (pages i).cards.isEmpty = false) →
    remote ((p + j) * 50) = none →
    p + j < T →
    crawlFrom remote T (T - p) p acc offs
      = (acc ++ ((List.range' p j).map (fun i => (pages i).cards)).flatten,
         offs ++ (List.range' p (j + 1)).map (fun i => i * 50)) := by
  intro j
  induction j with
  | zero =>
    intro p acc offs _ herr hlt
    rw [Nat.add_zero] at herr
    rw [show T - p = (T - p - 1) + 1 by omega, crawlFrom, herr]
    simp [List.range']
  | succ j ih =>
    intro p acc offs hok herr hlt
    obtain ⟨hpg, hne⟩ := hok p (le_refl p) (by omega)
    rw [show T - p = (T - p - 1) + 1 by omega, crawlFrom, hpg]
    simp only [hne, Bool.false_eq_true, if_false]
    rw [if_neg (by omega : ¬ T - 1 ≤ p)]
    rw [show T - p - 1 = T - (p + 1) by omega]
    rw [ih (p + 1) (acc ++ (pages p).cards) (offs ++ [p * 50])
      (fun i hi1 hi2 => hok i (by omega) (by omega))
      (by rw [show p + 1 + j = p + (j + 1) by omega]; exact herr)
      (by omega)]
    simp [List.range'_succ, List.append_assoc]

/-- C4 amended: on a first page whose total-count element reports `N ≥ 1` the
walker computes exactly `⌈N/50⌉` pages — `total_pages` is the least `m` with
`N ≤ 50 m` — and, absent an early empty page or error, fetches exactly the
offsets `i * 50` for `i < ⌈N/50⌉`; an absent total-count element yields
exactly one page. (A reported total of `0` is treated like an absent element
— see the counterexample.) -/
theorem pagination_total_inference (remote : Nat → Option ListingPage)
    (page0 : ListingPage) (pages : Nat → ListingPage) (n m : Nat)
    (h0 : remote 0 = some page0) (h1 : get_total_posts page0.small = some n)
    (h2 : 1 ≤ n) :
    (n ≤ 50 * total_pages_of (some n)
      ∧ (n ≤ 50 * m → total_pages_of (some n) ≤ m))
    ∧ ((∀ i, i < total_pages_of (some n) →
          remote (i * 50) = some (pages i) ∧ (pages i).cards.isEmpty = false) →
        pages 0 = page0 →
        (crawl remote).2
          = (List.range (total_pages_of (some n))).map (fun i => i * 50))
    ∧ total_pages_of none = 1 := by
  have hT : total_pages_of (some n) = (n + 49) / 50 := by
    have hne : n ≠ 0 := by omega
    simp [total_pages_of, hne]
  refine ⟨⟨?_, ?_⟩, ?_, rfl⟩
  · rw [hT]; omega
  · intro hm; rw [hT]; omega
  · intro hok hpg0
    have hT1 : 1 ≤ total_pages_of (some n) := by rw [hT]; omega
    obtain ⟨hr0, hne0⟩ := hok 0 (by omega)
    simp only [crawl, h0, h1]
    rw [← hpg0]
    simp only [hne0, Bool.false_eq_true, if_false]
    by_cases hone : total_pages_of (some n) - 1 ≤ 0
    · rw [if_pos hone]
      have : total_pages_of (some n) = 1 := by omega
      rw [this]
      show ([0] : List Nat) = List.map (fun i => i * 50) (List.range 1)
      decide
    · rw [if_neg hone]
      rw [crawlFrom_all remote (total_pages_of (some n)) pages
        (total_pages_of (some n) - 1) 1 (pages 0).cards [0]
        (by omega) (by omega)
        (fun i hi1 hi2 => hok i (by omega))]
      rw [List.range_eq_range',
        show total_pages_of (some n) = (total_pages_of (some n) - 1) + 1 by omega,
        List.range'_succ]
      simp

/-- C4 counterexample: the claim quantifies over every reported total `N`,
but for `N = 0` (e.g. a `<small>` element reading "Showing 0-0 of 0") the
source's `if total_posts:` treats the parsed `0` as falsy and computes 1
page, not `⌈0/50⌉ = 0`; the walker still fetches offset 0. -/
theorem pagination_zero_total_counterexample :
    get_total_posts (some "Showing 0-0 of 0") = some 0
    ∧ total_pages_of (some 0) = 1
    ∧ (0 + 49) / 50 = 0
    ∧ total_pages_of (some 0) ≠ (0 + 49) / 50
    ∧ (crawl (fun o => if o = 0
        then some ⟨some "Showing 0-0 of 0", []⟩ else none)).2 = [0] := by
  refine ⟨by decide, by decide, by decide, by decide, by decide⟩

/-- Witness for the amended C4: a profile reporting "Showing 1-50 of 73"
yields exactly 2 pages and the 2 listing fetches at offsets 0 and 50. -/
theorem pagination_total_inference_witness :
    73 ≤ 50 * total_pages_of (some 73)
    ∧ total_pages_of (some 73) ≤ 2
    ∧ (crawl rem73).2 = (List.range (total_pages_of (some 73))).map (fun i => i * 50)
    ∧ total_pages_of none = 1 := by
  have h := pagination_total_inference rem73 pg73a pages73 73 2
    (by decide) (by decide) (by decide)
  exact ⟨h.1.1, h.1.2 (by decide), h.2.1 (by decide) (by decide), h.2.2⟩

/-- C5: a listing page with zero post cards stops the walk immediately and
without error, leaving the accumulated posts of the earlier pages unchanged —
whatever larger total had been computed from the first page. -/
theorem empty_page_stops (remote : Nat → Option ListingPage)
    (tpages p fuel : Nat) (acc : List PostInfo) (offs : List Nat)
    (page : ListingPage)
    (h1 : remote (p * 50) = some page) (h2 : page.cards.isEmpty = true) :
    crawlFrom remote tpages (fuel + 1) p acc offs = (acc, offs ++ [p * 50]) := by
  rw [crawlFrom, h1]
  simp [h2]

/-- Witness for C5: an empty page 1 under a computed total of 10 pages leaves
the accumulator from page 0 untouched. -/
theorem empty_page_stops_witness :
    crawlFrom remEmpty 10 3 1 [postMedia] [0] = ([postMedia], [0, 50]) :=
  empty_page_stops remEmpty 10 1 2 [postMedia] [0] ⟨none, []⟩ (by decide) (by decide)

/-- C6: a page-level network failure aborts the walk and returns exactly the
post summaries collected from the earlier successful pages (never an empty
result when an earlier page succeeded), and the run proceeds to filter (and
then download) that partial result. -/
theorem page_failure_preserves_partial (remote : Nat → Option ListingPage)
    (config : Config) (k : Nat) (pages : Nat → ListingPage)
    (hok : ∀ i, i < k →
      remote (i * 50) = some (pages i) ∧ (pages i).cards.isEmpty = false)
    (herr : remote (k * 50) = none)
    (hreach : k = 0 ∨ k < total_pages_of (get_total_posts (pages 0).small)) :
    (crawl remote).1 = ((List.range k).map (fun i => (pages i).cards)).flatten
    ∧ (crawl remote).2 = (List.range (k + 1)).map (fun i => i * 50)
    ∧ run_filtered remote config = filter_posts config ((crawl remote).1)
    ∧ (1 ≤ k → (crawl remote).1 ≠ []) := by
  rcases Nat.eq_zero_or_pos k with hk | hk
  · subst hk
    simp only [Nat.zero_mul] at herr
    have hcr0 : crawl remote = ([], [0]) := by simp [crawl, herr]
    exact ⟨by rw [hcr0]; simp, by rw [hcr0]; simp [List.range_eq_range', List.range'],
      rfl, by omega⟩
  · obtain ⟨j, rfl⟩ : ∃ j, k = j + 1 := ⟨k - 1, by omega⟩
    have hkT : j + 1 < total_pages_of (get_total_posts (pages 0).small) := by
      rcases hreach with h | h
      · omega
      · exact h
    obtain ⟨hr0, hne0⟩ := hok 0 hk
    simp only [Nat.zero_mul] at hr0
    have hcr : crawl remote
        = (((pages 0).cards
              ++ ((List.range' 1 j).map (fun i => (pages i).cards)).flatten,
            [0] ++ (List.range' 1 (j + 1)).map (fun i => i * 50))) := by
      simp only [crawl, hr0, hne0, Bool.false_eq_true, if_false]
      rw [if_neg (by omega :
        ¬ total_pages_of (get_total_posts (pages 0).small) - 1 ≤ 0)]
      have := crawlFrom_err remote
        (total_pages_of (get_total_posts (pages 0).small)) pages
        j 1 (pages 0).cards [0]
        (fun i hi1 hi2 => hok i (by omega))
        (by rw [show 1 + j = j + 1 by omega]; exact herr)
        (by omega)
      rw [this]
    refine ⟨?_, ?_, rfl, ?_⟩
    · rw [hcr, List.range_eq_range']
      simp [List.range'_succ]
    · rw [hcr, List.range_eq_range']
      simp [List.range'_succ]
    · intro _
      rw [hcr]
      intro hnil
      simp only [Prod.fst] at hnil
      rcases List.append_eq_nil.mp hnil with ⟨hc0, _⟩
      rw [hc0] at hne0
      simp [List.isEmpty] at hne0

/-- Witness for C6: page 1 of the 73-post profile fails; the posts of page 0
are preserved and flow into the filter. -/
theorem page_failure_witness :
    (crawl remFailAt1).1 = ((List.range 1).map (fun i => (pagesFail i).cards)).flatten
    ∧ (crawl remFailAt1).2 = (List.range 2).map (fun i => i * 50)
    ∧ run_filtered remFailAt1 cfgFilesOnly
        = filter_posts cfgFilesOnly ((crawl remFailAt1).1)
    ∧ (1 ≤ 1 → (crawl remFailAt1).1 ≠ []) :=
  page_failure_preserves_partial remFailAt1 cfgFilesOnly 1 pagesFail
    (by decide) (by decide) (Or.inr (by decide))

/-! ### Download engine -/

/-- Lemma: `ensure_unique_filename` always hands the media loop a fresh path, so the
`if not os.path.exists(file_path)` guard always passes: one loop iteration
either fetches-and-writes or fetches-and-fails. -/
theorem download_file_eq (rm : Remote) (pp : String)
    (st : List String × List String × List String) (u : String) :
    download_file rm pp st u
      = (if rm.media u
         then (path_join pp (ensure_unique_filename st.1 pp (get_filename_from_url u)) :: st.1,
               st.2.1 ++ [u],
               st.2.2 ++ [path_join pp (ensure_unique_filename st.1 pp (get_filename_from_url u))])
         else (st.1, st.2.1 ++ [u], st.2.2)) := by
  unfold download_file
  rw [if_neg (ensure_unique_fresh st.1 pp (get_filename_from_url u))]

/-- A media loop requests exactly the URLs of its element list, in order,
regardless of which fetches succeed. -/
theorem download_files_fetches (rm : Remote) (pp : String) :
    ∀ (urls : List String) (st : List String × List String × List String),
    (download_files rm pp urls st).2.1 = st.2.1 ++ urls := by
  intro urls
  induction urls with
  | nil => intro st; simp [download_files]
  | cons u us ih =>
    intro st
    rw [download_files, ih, download_file_eq]
    split_ifs <;> simp

/-- When every fetch of the loop succeeds, each URL produces exactly one
written file. -/
theorem download_files_writes_len (rm : Remote) (pp : String) :
    ∀ (urls : List String) (st : List String × List String × List String),
    (∀ u, u ∈ urls → rm.media u = true) →
    (download_files rm pp urls st).2.2.length = st.2.2.length + urls.length := by
  intro urls
  induction urls with
  | nil => intro st _; simp [download_files]
  | cons u us ih =>
    intro st hm
    rw [download_files, ih _ (fun v hv => hm v (List.mem_cons_of_mem u hv)),
      download_file_eq, if_pos (hm u (List.mem_cons_self u us))]
    simp
    omega

/-- The media loops only grow the filesystem, and every path they write was
absent from any set contained in the starting filesystem. -/
theorem download_files_fresh (rm : Remote) (pp : String) (fs0 : List String) :
    ∀ (urls : List String) (st : List String × List String × List String),
    fs0 ⊆ st.1 → (∀ q, q ∈ st.2.2 → q ∉ fs0) →
    fs0 ⊆ (download_files rm pp urls st).1
      ∧ ∀ q, q ∈ (download_files rm pp urls st).2.2 → q ∉ fs0 := by
  intro urls
  induction urls with
  | nil => intro st h1 h2; exact ⟨h1, h2⟩
  | cons u us ih =>
    intro st h1 h2
    rw [download_files]
    apply ih
    · rw [download_file_eq]
      split_ifs
      · exact fun x hx => List.mem_cons_of_mem _ (h1 hx)
      · exact h1
    · rw [download_file_eq]
      split_ifs with hmed
      · intro q hq
        simp only [Prod.snd] at hq
        rcases List.mem_append.mp hq with h | h
        · exact h2 q h
        · have hfp := ensure_unique_fresh st.1 pp (get_filename_from_url u)
          have : q = path_join pp (ensure_unique_filename st.1 pp (get_filename_from_url u)) := by
            simpa using h
          subst this
          intro hq0
          exact hfp (h1 hq0)
      · exact h2

/-- The ite guarding the attachment and video passes, threaded through
`download_files_fresh`. -/
theorem download_files_fresh_ite (rm : Remote) (pp : String) (fs0 : List String)
    (b : Bool) (urls : List String)
    (st : List String × List String × List String)
    (h1 : fs0 ⊆ st.1) (h2 : ∀ q, q ∈ st.2.2 → q ∉ fs0) :
    fs0 ⊆ (if b then download_files rm pp urls st else st).1
      ∧ ∀ q, q ∈ (if b then download_files rm pp urls st else st).2.2 → q ∉ fs0 := by
  cases b
  · simpa using ⟨h1, h2⟩
  · simpa using download_files_fresh rm pp fs0 urls st h1 h2

/-- C3: if the first invocation of `download_content` on a post did not fail
at the page fetch, the second invocation on the unchanged remote reports
`Skipped`, performs no media network call, and writes nothing — the
filesystem is returned unchanged; moreover no write of the first invocation
ever touched a pre-existing path (no overwrite). -/
theorem download_idempotent (rm : Remote) (url : String) (config : Config)
    (fs : List String) (r : DLResult) (q : String)
    (h1 : download_content rm url config fs = Except.ok r)
    (h2 : r.outcome ≠ Outcome.reqError) :
    download_content rm url config r.fs
        = Except.ok ⟨r.fs, Outcome.skipped, [], []⟩
    ∧ (q ∈ r.writes → q ∉ fs) := by
  cases hp : rm.page url with
  | none =>
    simp only [download_content, hp] at h1
    have := Except.ok.inj h1
    rw [← this] at h2
    simp at h2
  | some soup =>
    simp only [download_content, hp] at h1
    cases hpl : platform_of soup with
    | error e => simp only [hpl] at h1; exact absurd h1 (by simp)
    | ok pf =>
      simp only [hpl] at h1
      cases hpid : soup.postId with
      | none => simp only [hpid] at h1; exact absurd h1 (by simp)
      | some pid =>
        simp only [hpid] at h1
        by_cases hmem :
            path_join (path_join (path_join
              (if strContains (urlparse_netloc url) "kemono.su"
                  || strContains (urlparse_netloc url) "kemono.party"
               then "Kemono" else "Coomer") (author_of soup ++ "-" ++ pf))
              "posts") pid ∈ fs
        · rw [if_pos hmem] at h1
          have hr := (Except.ok.inj h1).symm
          subst hr
          refine ⟨?_, by intro hq; simp at hq⟩
          simp only [download_content, hp, hpl, hpid]
          rw [if_pos hmem]
        · rw [if_neg hmem] at h1
          have hr := (Except.ok.inj h1).symm
          subst hr
          set P := path_join (path_join (path_join
            (if strContains (urlparse_netloc url) "kemono.su"
                || strContains (urlparse_netloc url) "kemono.party"
             then "Kemono" else "Coomer") (author_of soup ++ "-" ++ pf))
            "posts") pid with hPdef
          have hstep0 : (P :: fs) ⊆
              (if config.save_info_txt then save_post_info_fs soup P (P :: fs)
               else (P :: fs)) := by
            cases hs : config.save_info_txt
            · simp
            · simp only [save_post_info_fs, if_true]
              exact fun x hx => List.mem_cons_of_mem _ hx
          have hst3 := download_files_fresh rm P (P :: fs) soup.imageLinks
            ((if config.save_info_txt then save_post_info_fs soup P (P :: fs)
              else (P :: fs)), [], [])
            hstep0 (by intro q hq; simp at hq)
          have hst4 := download_files_fresh_ite rm P (P :: fs)
            config.download_attachments soup.attachmentLinks _ hst3.1 hst3.2
          have hst5 := download_files_fresh_ite rm P (P :: fs)
            config.download_videos soup.attachmentLinks _ hst4.1 hst4.2
          constructor
          · simp only [download_content, hp, hpl, hpid]
            rw [if_pos (hst5.1 (List.mem_cons_self P fs))]
          · intro hq
            have := hst5.2 q hq
            intro hqfs
            exact this (List.mem_cons_of_mem P hqfs)

/-- Witness for C3: after the concrete first download, the second invocation
skips with no fetches and no writes. -/
theorem download_idempotent_witness :
    download_content rm3 url3 cfg3 r3.fs
        = Except.ok ⟨r3.fs, Outcome.skipped, [], []⟩
    ∧ ("Kemono/A-patreon/posts/42/i1.png" ∈ r3.writes
        → "Kemono/A-patreon/posts/42/i1.png" ∉ ([] : List String)) :=
  download_idempotent rm3 url3 cfg3 [] r3 "Kemono/A-patreon/posts/42/i1.png"
    (by decide) (by decide)

/-- C7 amended: a post detail page lacking the mandatory post-id metadata
element makes `download_content` raise an uncaught extraction error
(`None["content"]`, a `TypeError` in the source), which propagates out of the
download loop and aborts the entire run — the remaining posts are not
processed; the failure is fatal to the whole process. -/
theorem missing_post_id_fatal (rm : Remote) (config : Config) (fs : List String)
    (post : PostInfo) (rest : List PostInfo) (soup : PostPage) (pf : String)
    (h1 : rm.page post.link = some soup)
    (h2 : platform_of soup = Except.ok pf)
    (h3 : soup.postId = none) :
    download_content rm post.link config fs = Except.error Fatal.missingPostId
    ∧ run_downloads rm config (post :: rest) fs
        = Except.error Fatal.missingPostId := by
  have hdc : download_content rm post.link config fs
      = Except.error Fatal.missingPostId := by
    simp only [download_content, h1, h2, h3]
  exact ⟨hdc, by simp only [run_downloads, hdc]⟩

/-- C7 counterexample: with the first post's page lacking the post-id
element, the whole run aborts with the uncaught error and the second post —
which downloads fine on its own — is never processed. The failure is fatal to
the process, not isolated to the post. -/
theorem missing_post_id_counterexample :
    download_content rm7 post7a.link cfg7 [] = Except.error Fatal.missingPostId
    ∧ run_downloads rm7 cfg7 [post7a, post7b] [] = Except.error Fatal.missingPostId
    ∧ run_downloads rm7 cfg7 [post7b] []
        = Except.ok (["Coomer/B-UnknownPlatform/posts/7"], [Outcome.success]) := by
  exact ⟨by decide, by decide, by decide⟩

/-- Witness for the amended C7, on the concrete two-post run. -/
theorem missing_post_id_fatal_witness :
    download_content rm7 post7a.link cfg7 [] = Except.error Fatal.missingPostId
    ∧ run_downloads rm7 cfg7 [post7a, post7b] []
        = Except.error Fatal.missingPostId :=
  missing_post_id_fatal rm7 cfg7 [] post7a [post7b] badPage "UnknownPlatform"
    (by decide) (by decide) (by decide)

/-- C10: with `download_attachments` and `download_videos` both enabled, the
videos pass iterates the same `post__attachment-link` elements as the
attachments pass: every attachment URL is requested twice (the media request
log is images ++ attachments ++ attachments), and when every fetch succeeds
each attachment is written twice — concretely, the second copy of the single
attachment of the fixture scenario is stored as `a1_duplicate1.zip`. -/
theorem double_attachment_pass (rm : Remote) (url : String) (config : Config)
    (fs : List String) (soup : PostPage) (r : DLResult)
    (h1 : rm.page url = some soup)
    (ha : config.download_attachments = true)
    (hv : config.download_videos = true)
    (h2 : download_content rm url config fs = Except.ok r)
    (h3 : r.outcome = Outcome.success) :
    r.mediaFetches = soup.imageLinks ++ soup.attachmentLinks ++ soup.attachmentLinks
    ∧ ((∀ u, rm.media u = true) →
        r.writes.length
          = soup.imageLinks.length + 2 * soup.attachmentLinks.length)
    ∧ download_content rm3 url3 cfg3 [] = Except.ok r3 := by
  simp only [download_content, h1] at h2
  cases hpl : platform_of soup with
  | error e => simp only [hpl] at h2; exact absurd h2 (by simp)
  | ok pf =>
    simp only [hpl] at h2
    cases hpid : soup.postId with
    | none => simp only [hpid] at h2; exact absurd h2 (by simp)
    | some pid =>
      simp only [hpid] at h2
      by_cases hmem :
          path_join (path_join (path_join
            (if strContains (urlparse_netloc url) "kemono.su"
                || strContains (urlparse_netloc url) "kemono.party"
             then "Kemono" else "Coomer") (author_of soup ++ "-" ++ pf))
            "posts") pid ∈ fs
      · rw [if_pos hmem] at h2
        have hr := (Except.ok.inj h2).symm
        subst hr
        simp at h3
      · rw [if_neg hmem] at h2
        have hr := (Except.ok.inj h2).symm
        subst hr
        rw [ha, hv]
        simp only [if_true]
        refine ⟨?_, ?_, by decide⟩
        · rw [download_files_fetches, download_files_fetches,
            download_files_fetches]
          simp
        · intro hm
          rw [download_files_writes_len _ _ _ _ (fun u _ => hm u),
            download_files_writes_len _ _ _ _ (fun u _ => hm u),
            download_files_writes_len _ _ _ _ (fun u _ => hm u)]
          simp
          omega

/-- Witness for C10, on the fixture: one image, one attachment, both passes
enabled, all fetches succeeding. -/
theorem double_attachment_pass_witness :
    r3.mediaFetches = page3.imageLinks ++ page3.attachmentLinks ++ page3.attachmentLinks
    ∧ r3.writes.length = page3.imageLinks.length + 2 * page3.attachmentLinks.length
    ∧ download_content rm3 url3 cfg3 [] = Except.ok r3 := by
  have h := double_attachment_pass rm3 url3 cfg3 [] page3 r3
    (by decide) (by decide) (by decide) (by decide) (by decide)
  exact ⟨h.1, h.2.1 (fun u => rfl), h.2.2⟩

/-! ### Filename de-duplication (claim-level statement) -/

/-- C9: `ensure_unique_filename` returns the filename unchanged when no file
of that name exists in the folder, and otherwise the first name of the form
`{base}_duplicate{k}{ext}` (k = 1, 2, ...) not present in the folder — in
particular `{base}_duplicate1{ext}` whenever that first candidate is free;
hence downloading two distinct URLs resolving to the same basename into the
same folder produces two distinct files, the second named
`{base}_duplicate1{ext}` (concrete final conjunct). -/
theorem ensure_unique_filename_spec (fs : List String) (path filename : String) :
    (path_join path filename ∉ fs →
      ensure_unique_filename fs path filename = filename)
    ∧ (path_join path filename ∈ fs →
      ∃ k, 1 ≤ k
        ∧ ensure_unique_filename fs path filename
            = dup_candidate (splitext filename).1 (splitext filename).2 k
        ∧ path_join path (dup_candidate (splitext filename).1 (splitext filename).2 k) ∉ fs
        ∧ ∀ j, 1 ≤ j → j < k →
            path_join path (dup_candidate (splitext filename).1 (splitext filename).2 j) ∈ fs)
    ∧ (path_join path filename ∈ fs →
      path_join path (dup_candidate (splitext filename).1 (splitext filename).2 1) ∉ fs →
      ensure_unique_filename fs path filename
        = dup_candidate (splitext filename).1 (splitext filename).2 1)
    ∧ download_content rm9 url9 cfg9 [] = Except.ok r9 := by
  refine ⟨(ensure_unique_spec fs path filename).1,
    (ensure_unique_spec fs path filename).2, ?_, by decide⟩
  intro hbusy hfree1
  obtain ⟨k, hk1, heq, hkfree, hmin⟩ := (ensure_unique_spec fs path filename).2 hbusy
  rcases Nat.lt_or_ge 1 k with hgt | hle
  · exact absurd (hmin 1 (le_refl 1) hgt) hfree1
  · have hk : k = 1 := by omega
    rw [hk] at heq
    exact heq

/-- Witness for C9: a free name is kept; a colliding `a.txt` becomes
`a_duplicate1.txt`. -/
theorem ensure_unique_filename_spec_witness :
    ensure_unique_filename ["q/b.txt"] "p" "a.txt" = "a.txt"
    ∧ ensure_unique_filename ["p/a.txt"] "p" "a.txt" = "a_duplicate1.txt" := by
  have h1 := ensure_unique_filename_spec ["q/b.txt"] "p" "a.txt"
  have h2 := ensure_unique_filename_spec ["p/a.txt"] "p" "a.txt"
  exact ⟨h1.1 (by decide), ((h2.2.2.1 (by decide) (by decide)).trans (by decide))⟩

end Profile
